import Mathlib

/-!
Shallow embedding of `src/convert.py` (mozc → rime dictionary converter).

Python strings are sequences of Unicode code points, modelled as Lean
`String` (a list of `Char`, i.e. Unicode scalar values).  The external
libraries `jaconv` (hira2kata, kana2alphabet) and the optional `pykakasi`
backend are not part of this repository; they are modelled as an abstract
`Backend` record of arbitrary string functions, so theorems about the
pipeline hold for every possible behaviour of those libraries.  A pykakasi
call that raises a Python exception is modelled by `Except.error`.

Python's `str.lower` / `\s` / `str.strip` are Unicode-aware; the model
covers the ASCII portion of those classes (all characters the claims and
the concrete inputs below exercise are either ASCII or CJK characters that
are neither whitespace nor cased, where the modelled and real behaviour
agree).
-/

/-- Membership in the character class `[a-z0-9]` used by `ASCII_RE` and the
`re.sub` cleaning steps of `convert.py`. -/
def isLowerDigit (c : Char) : Bool :=
  ('a' ≤ c && c ≤ 'z') || ('0' ≤ c && c ≤ '9')

/-- Whitespace as stripped by `re.sub(r'\s+', '', ·)` and `str.strip()`
(ASCII portion of Python's class). -/
def isPySpace (c : Char) : Bool :=
  c = ' ' || c = '\t' || c = '\n' || c = '\r' || c = '\x0b' || c = '\x0c'

/-- Model of `re.sub(r'[^a-z0-9]', '', s)`: delete every character outside `[a-z0-9]`. -/
def cleanNonAlnum (s : String) : String :=
  ⟨s.data.filter isLowerDigit⟩

/-- Model of `re.sub(r'\s+', '', s)`: delete every whitespace character. -/
def stripWs (s : String) : String :=
  ⟨s.data.filter (fun c => !isPySpace c)⟩

/-- Python `str.lower()` (ASCII case folding; see module comment). -/
def pyLower (s : String) : String :=
  ⟨s.data.map Char.toLower⟩

/-- Python `str.strip()` on a list of characters: remove leading and
trailing whitespace. -/
def pyStripL (cs : List Char) : List Char :=
  ((cs.dropWhile isPySpace).reverse.dropWhile isPySpace).reverse

/-- Python `str.strip()`: remove leading and trailing whitespace. -/
def pyStrip (s : String) : String :=
  ⟨pyStripL s.data⟩

/-- Python `line.split("\t")`: split at every tab, keeping empty fields
(`"".split("\t") = [""]`). -/
def splitTab : List Char → List (List Char)
  | [] => [[]]
  | c :: rest =>
    let r := splitTab rest
    if c = '\t' then [] :: r
    else (c :: r.headD []) :: r.tail

/-- Source `convert.py` line 32: `is_ascii_romaji(s) = bool(ASCII_RE.fullmatch(s))`
with `ASCII_RE = re.compile(r'^[a-z0-9]+$')`: true iff `s` is non-empty and
every character is in `[a-z0-9]`. -/
def is_ascii_romaji (s : String) : Bool :=
  !s.isEmpty && s.data.all isLowerDigit

/-- Source `convert.py` line 35: `has_japanese(word)` = `JP_CHAR_RE.search(word)`
with `JP_CHAR_RE = re.compile(r'[぀-ヿ一-鿿]')`: true iff
some character lies in U+3040–U+30FF or U+4E00–U+9FFF. -/
def has_japanese (word : String) : Bool :=
  word.data.any (fun c =>
    (0x3040 ≤ c.val && c.val ≤ 0x30FF) || (0x4E00 ≤ c.val && c.val ≤ 0x9FFF))

/-- The external transliteration collaborators of `convert.py`:
`jaconv.hira2kata`, `jaconv.kana2alphabet`, and the optional pykakasi
backend (`pykakasi = none` models `HAS_PYKAKASI = False`; an inner
`Except.error` models `pykakasi_convert` raising an exception). -/
structure Backend where
  hira2kata : String → String
  kana2alphabet : String → String
  pykakasi : Option (String → Except Unit String)

/-- Source `convert.py` line 41: `jaconv.hira2kata(reading).replace('ゔ', 'ヴ')`. -/
def normalizeKata (B : Backend) (reading : String) : String :=
  ⟨(B.hira2kata reading).data.map (fun c => if c = 'ゔ' then 'ヴ' else c)⟩

/-- Source `convert.py` lines 42–44: the primary clean candidate `romaji_clean` =
`re.sub('[^a-z0-9]','', re.sub('\s+','', jaconv.kana2alphabet(r_kata).lower()))`. -/
def primaryClean (B : Backend) (reading : String) : String :=
  cleanNonAlnum (stripWs (pyLower (B.kana2alphabet (normalizeKata B reading))))

/-- Source `convert.py` lines 38–59: `convert_reading_to_romaji`. -/
def convert_reading_to_romaji (B : Backend) (reading : String) : String :=
  if reading = "" then ""
  else
    let r_kata := normalizeKata B reading
    let romaji_clean := primaryClean B reading
    if is_ascii_romaji romaji_clean then romaji_clean
    else
      match B.pykakasi with
      | some f =>
        match f r_kata with
        | Except.ok r_py =>
          let r_py_clean := cleanNonAlnum (pyLower (stripWs r_py))
          if r_py_clean ≠ "" then r_py_clean else romaji_clean
        | Except.error _ => romaji_clean
      | none => romaji_clean

/-- The condition under which the secondary backend "fails" in the sense
of `convert.py` lines 49–57: it is present and either raises, or its
lowercased, whitespace-stripped, cleaned result is empty. -/
def secondaryFails (B : Backend) (reading : String) : Prop :=
  match B.pykakasi with
  | none => False
  | some f =>
    match f (normalizeKata B reading) with
    | Except.error _ => True
    | Except.ok r_py => cleanNonAlnum (pyLower (stripWs r_py)) = ""

/-- A concrete backend instance (identity transliteration, pykakasi
absent) used to evaluate the model on concrete inputs. -/
def idBackend : Backend :=
  ⟨id, id, none⟩

/-- A concrete backend whose kana→alphabet step yields nothing, so every
non-empty reading produces an empty clean candidate. -/
def emptyKanaBackend : Backend :=
  ⟨id, fun _ => "", none⟩

/-- A concrete backend whose pykakasi collaborator always raises. -/
def raisingBackend : Backend :=
  ⟨id, fun _ => "", some (fun _ => Except.error ())⟩

/-- The `stats` dict of `mozc_to_rime` (`convert.py` line 68). -/
structure Stats where
  processed_lines : Nat
  converted : Nat
  skipped : Nat
  filtered_nonjp : Nat
deriving DecidableEq, Repr

/-- The mutable aggregation state of the loop in `mozc_to_rime`
(lines 66–68): `stats`, `results` (accepted entries `(word, romaji)`) and
`skippedRecs` (the `skipped` list of `(word, reading, reason)`). -/
structure LoopState where
  stats : Stats
  results : List (String × String)
  skippedRecs : List (String × String × String)
deriving DecidableEq, Repr

def initState : LoopState :=
  ⟨⟨0, 0, 0, 0⟩, [], []⟩

/-- The possible outcomes of the per-line body of the loop in
`mozc_to_rime` (lines 74–97), not counting the unconditional
`processed_lines` increment. `crash` is the `IndexError` raised by
`parts[4]` when `2 ≤ len(parts) < 5`. -/
inductive LineResult where
  | silent
  | crash
  | nonjp (word : String)
  | noRomaji (word reading : String)
  | ok (word romaji reading : String)
deriving DecidableEq, Repr

/-- Source `convert.py` lines 74–97: classify one raw line. Mirrors the source
order: `strip`, blank/comment check, `split("\t")`, `len(parts) < 2`
guard, `parts[0].strip()` / `parts[4].strip()` (the latter raising
`IndexError` when there is no index 4), empty-word check, `has_japanese`
filter, then the transliteration engine. -/
def lineOutcome (B : Backend) (rawLine : String) : LineResult :=
  let line := pyStripL rawLine.data
  if line = [] || line.headD ' ' = '#' then .silent
  else
    let parts := splitTab line
    if parts.length < 2 then .silent
    else
      let reading : String := ⟨pyStripL (parts.headD [])⟩
      match parts[4]? with
      | none => .crash
      | some field4 =>
        let word : String := ⟨pyStripL field4⟩
        if word = "" then .silent
        else if !has_japanese word then .nonjp word
        else
          let romaji := convert_reading_to_romaji B reading
          if romaji = "" then .noRomaji word reading
          else .ok word romaji reading

/-- One iteration of the line loop of `mozc_to_rime` (lines 72–97):
`processed_lines` is incremented first (line 73), then the state is
updated according to the branch taken; `none` models the uncaught
`IndexError` aborting the run. -/
def processLine (B : Backend) (st : LoopState) (rawLine : String) :
    Option LoopState :=
  let st1 : LoopState :=
    { st with stats := { st.stats with
        processed_lines := st.stats.processed_lines + 1 } }
  match lineOutcome B rawLine with
  | .silent => some st1
  | .crash => none
  | .nonjp _ =>
      some { st1 with stats := { st1.stats with
               filtered_nonjp := st1.stats.filtered_nonjp + 1 } }
  | .noRomaji w r =>
      some { st1 with
               stats := { st1.stats with skipped := st1.stats.skipped + 1 },
               skippedRecs := st1.skippedRecs ++ [(w, r, "无法生成ASCII romaji")] }
  | .ok w romaji _ =>
      some { st1 with
               stats := { st1.stats with converted := st1.stats.converted + 1 },
               results := st1.results ++ [(w, romaji)] }

/-- The full line loop over a sequence of raw lines. -/
def processLines (B : Backend) (st : LoopState) (lines : List String) :
    Option LoopState :=
  lines.foldlM (processLine B) st

/-- The entries one line contributes to `results` (one for an accepted
line, none otherwise). -/
def lineEntries (B : Backend) (l : String) : List (String × String) :=
  match lineOutcome B l with
  | .ok w romaji _ => [(w, romaji)]
  | _ => []

/-- The records one line contributes to `skipped` (one for a qualifying
line with no derivable key, none otherwise). -/
def lineSkips (B : Backend) (l : String) : List (String × String × String) :=
  match lineOutcome B l with
  | .noRomaji w r => [(w, r, "无法生成ASCII romaji")]
  | _ => []

/-- The entries a sequence of lines contributes to `results`, in line
order (stateless restatement of the loop, used to express output order). -/
def extractEntries (B : Backend) (lines : List String) :
    List (String × String) :=
  lines.flatMap (lineEntries B)

/-- The records a sequence of lines contributes to `skipped`, in line
order. -/
def extractSkips (B : Backend) (lines : List String) :
    List (String × String × String) :=
  lines.flatMap (lineSkips B)

/-- The two fatal exceptions `mozc_to_rime` can raise:
`FileNotFoundError` (line 64) and the `IndexError` from `parts[4]`
(line 81). -/
inductive PyErr where
  | fileNotFound
  | indexError
deriving DecidableEq, Repr

/-- One file opened with mode `"w"` (create/overwrite) and written whole. -/
structure FileWrite where
  path : String
  content : String
deriving DecidableEq, Repr

/-- Result of a run of `mozc_to_rime`: the exception raised (if any), the
file writes performed, in order, and the returned
`(stats, len(results), "skipped.tsv")` value on normal return. -/
structure RunOutcome where
  error : Option PyErr
  writes : List FileWrite
  returned : Option (Stats × Nat × String)
deriving DecidableEq, Repr

/-- Source `convert.py` lines 100–104: the fixed header block, with the supplied
dictionary name and `today = datetime.today().strftime("%Y.%m.%d")`. -/
def headerStr (dict_name today : String) : String :=
  "# Rime dictionary converted from Mozc\n" ++
  "# encoding: utf-8\n" ++
  "---\nname: " ++ dict_name ++ "\nversion: \"" ++ today ++
  "\"\nsort: by_weight\ncolumns:\n  - text\n  - code\n...\n\n"

/-- Source `convert.py` line 109: one accepted entry serialized as
`word<TAB>romaji<NL>`. -/
def entryLine (e : String × String) : String :=
  e.1 ++ "\t" ++ e.2 ++ "\n"

/-- Source `convert.py` line 113: one skipped record serialized as
`word<TAB>reading<TAB>reason<NL>`. -/
def skipLine (e : String × String × String) : String :=
  e.1 ++ "\t" ++ e.2.1 ++ "\t" ++ e.2.2 ++ "\n"

/-- Lexicographic comparison of full paths, as used by Python's
`sorted` on the list of glob matches. -/
def pathLe (a b : String × List String) : Bool :=
  a.1 ≤ b.1

/-- Source `convert.py` lines 61–115: `mozc_to_rime`.  `dirFiles` models the
unordered glob matches `glob.glob(os.path.join(mozc_dir, pattern))`, each
path paired with the lines of that file (already decoded; decode errors
are dropped by `errors="ignore"` before this point); `today` models
`datetime.today().strftime("%Y.%m.%d")`.  The function sorts the matches,
raises `FileNotFoundError` when none exist, runs the line loop (which can
raise `IndexError`), and only then opens and writes the primary output
file and `skipped.tsv`. -/
def mozc_to_rime (B : Backend) (dirFiles : List (String × List String))
    (dict_name output_file today : String) : RunOutcome :=
  let files := dirFiles.mergeSort pathLe
  if files.isEmpty then
    { error := some .fileNotFound, writes := [], returned := none }
  else
    match processLines B initState (files.flatMap Prod.snd) with
    | none => { error := some .indexError, writes := [], returned := none }
    | some st =>
      let primary : FileWrite :=
        ⟨output_file,
         headerStr dict_name today ++ String.join (st.results.map entryLine)⟩
      let diagnostic : FileWrite :=
        ⟨"skipped.tsv", String.join (st.skippedRecs.map skipLine)⟩
      { error := none,
        writes := [primary, diagnostic],
        returned := some (st.stats, st.results.length, "skipped.tsv") }

/-! ## Sanity checks of the embedding on the spec's concrete scenarios -/

example : is_ascii_romaji "gakkou" = true := by decide
example : is_ascii_romaji "" = false := by decide
example : has_japanese "学校" = true := by decide
example : has_japanese "々" = false := by decide
example : has_japanese "Wi-Fi" = false := by decide

/-! ## Helper lemmas -/

theorem char_toNat_inj {c d : Char} : c.toNat = d.toNat ↔ c = d :=
  ⟨fun h => Char.ext (UInt32.eq_of_toBitVec_eq (BitVec.toNat_eq.mpr h)), fun h => h ▸ rfl⟩

theorem isLowerDigit_iff (c : Char) : isLowerDigit c = true ↔
    (97 ≤ c.toNat ∧ c.toNat ≤ 122) ∨ (48 ≤ c.toNat ∧ c.toNat ≤ 57) := by
  simp [isLowerDigit, Char.le_def, UInt32.le_def, BitVec.le_def, Char.toNat, UInt32.toNat]

theorem isLowerDigit_not_space {c : Char} (h : isLowerDigit c = true) :
    isPySpace c = false := by
  rw [isLowerDigit_iff] at h
  simp only [isPySpace, Bool.or_eq_false_iff, decide_eq_false_iff_not, ← char_toNat_inj]
  have h1 : (' ' : Char).toNat = 32 := rfl
  have h2 : ('\t' : Char).toNat = 9 := rfl
  have h3 : ('\n' : Char).toNat = 10 := rfl
  have h4 : ('\r' : Char).toNat = 13 := rfl
  have h5 : ('\x0b' : Char).toNat = 11 := rfl
  have h6 : ('\x0c' : Char).toNat = 12 := rfl
  omega

theorem isLowerDigit_not_upper {c : Char} (h : isLowerDigit c = true) :
    c.isUpper = false := by
  rw [isLowerDigit_iff] at h
  simp only [Char.isUpper, Bool.and_eq_false_iff, decide_eq_false_iff_not, Char.le_def,
    UInt32.le_def, BitVec.le_def]
  have hA : (UInt32.toBitVec 65).toNat = 65 := rfl
  have hZ : (UInt32.toBitVec 90).toNat = 90 := rfl
  have hc : c.val.toBitVec.toNat = c.toNat := rfl
  omega

theorem cleanNonAlnum_all (s : String) :
    (cleanNonAlnum s).data.all isLowerDigit = true := by
  simp only [cleanNonAlnum, List.all_eq_true]
  intro c hc
  exact (List.mem_filter.mp hc).2

/-- Every branch of the engine returns either the empty string, the
primary clean candidate, or the cleaned secondary rendering. -/
theorem convert_cases (B : Backend) (r : String) :
    convert_reading_to_romaji B r = "" ∨
    convert_reading_to_romaji B r = primaryClean B r ∨
    ∃ r_py, convert_reading_to_romaji B r = cleanNonAlnum (pyLower (stripWs r_py)) := by
  simp only [convert_reading_to_romaji]
  split
  · exact .inl rfl
  · split
    · exact .inr (.inl rfl)
    · split
      · rename_i f hk
        split
        · rename_i r_py hok
          by_cases h2 : cleanNonAlnum (pyLower (stripWs r_py)) = ""
          · rw [if_neg (not_not_intro h2)]
            exact .inr (.inl rfl)
          · rw [if_pos h2]
            exact .inr (.inr ⟨r_py, rfl⟩)
        · exact .inr (.inl rfl)
      · exact .inr (.inl rfl)

/-- Every branch of the engine returns the `[^a-z0-9]`-cleaning of some
string (the empty result included, as cleaning of the empty string). -/
theorem convert_eq_clean (B : Backend) (r : String) :
    ∃ s, convert_reading_to_romaji B r = cleanNonAlnum s := by
  rcases convert_cases B r with h | h | ⟨r_py, h⟩
  · exact ⟨"", h⟩
  · exact ⟨stripWs (pyLower (B.kana2alphabet (normalizeKata B r))), h⟩
  · exact ⟨pyLower (stripWs r_py), h⟩

/-- The re-validation `is_ascii_romaji` can reject a `[^a-z0-9]`-cleaned
string only for emptiness: cleaning already guarantees the character
class. -/
theorem is_ascii_romaji_clean (s : String) :
    (is_ascii_romaji (cleanNonAlnum s) = true ↔ cleanNonAlnum s ≠ "") := by
  constructor
  · intro h hempty
    rw [hempty] at h
    exact absurd h (by decide)
  · intro hne
    simp only [is_ascii_romaji, Bool.and_eq_true, Bool.not_eq_true']
    refine ⟨?_, cleanNonAlnum_all s⟩
    cases h : (cleanNonAlnum s).isEmpty
    · rfl
    · exact absurd ((String.isEmpty_iff _).mp h) hne

/-- C5: for every backend behaviour and every reading (the empty reading
included), the transliteration engine returns a string all of whose
characters lie in `[a-z0-9]` — in particular it contains no whitespace and
no uppercase letter — on the primary path, the secondary-backend path and
the fall-through path alike. -/
theorem C5_engine_charset (B : Backend) (r : String) :
    (convert_reading_to_romaji B r).data.all
      (fun c => isLowerDigit c && !isPySpace c && !c.isUpper) = true := by
  obtain ⟨s, hs⟩ := convert_eq_clean B r
  rw [hs]
  simp only [cleanNonAlnum, List.all_eq_true, Bool.and_eq_true, Bool.not_eq_true']
  intro c hc
  have h1 : isLowerDigit c = true := (List.mem_filter.mp hc).2
  exact ⟨⟨h1, isLowerDigit_not_space h1⟩, isLowerDigit_not_upper h1⟩

/-- C10: the step-5 re-validation of the clean candidate can only fail by
emptiness — it accepts a cleaned string exactly when that string is
non-empty — and consequently a non-empty primary clean candidate is
returned as is, without consulting the secondary backend. -/
theorem C10_revalidation (B : Backend) (s r : String) (hr : r ≠ "") :
    (is_ascii_romaji (cleanNonAlnum s) = true ↔ cleanNonAlnum s ≠ "") ∧
    (primaryClean B r ≠ "" → convert_reading_to_romaji B r = primaryClean B r) := by
  refine ⟨is_ascii_romaji_clean s, fun hne => ?_⟩
  have hval : is_ascii_romaji (primaryClean B r) = true :=
    (is_ascii_romaji_clean (stripWs (pyLower (B.kana2alphabet (normalizeKata B r))))).mpr hne
  simp only [convert_reading_to_romaji, if_neg hr]
  rw [if_pos hval]

/-- Witness for C10 at a concrete candidate and reading. -/
theorem C10_revalidation_witness :
    (is_ascii_romaji (cleanNonAlnum "a!") = true ↔ cleanNonAlnum "a!" ≠ "") ∧
    (primaryClean idBackend "x" ≠ "" →
      convert_reading_to_romaji idBackend "x" = primaryClean idBackend "x") :=
  C10_revalidation idBackend "a!" "x" (by decide)

/-- C6: whenever the secondary backend is present and fails — it raises,
or its cleaned result is empty — the engine swallows the failure and
returns the primary clean candidate of step 4 (possibly empty); being a
total function, it never propagates the exception. -/
theorem C6_secondary_failure_nonfatal (B : Backend) (r : String)
    (hr : r ≠ "") (hf : secondaryFails B r) :
    convert_reading_to_romaji B r = primaryClean B r := by
  simp only [convert_reading_to_romaji, if_neg hr]
  by_cases h1 : is_ascii_romaji (primaryClean B r) = true
  · rw [if_pos h1]
  · rw [if_neg h1]
    cases hk : B.pykakasi with
    | none => simp only [secondaryFails, hk] at hf
    | some f =>
      cases hff : f (normalizeKata B r) with
      | error e => simp [hk, hff]
      | ok r_py =>
        simp only [secondaryFails, hk, hff] at hf
        simp [hk, hff, hf]

/-- Witness for C6: a backend whose pykakasi collaborator raises on the
reading `"x"`. -/
theorem C6_secondary_failure_nonfatal_witness :
    convert_reading_to_romaji raisingBackend "x" = primaryClean raisingBackend "x" :=
  C6_secondary_failure_nonfatal raisingBackend "x" (by decide) trivial

/-! ## Per-line and per-pass lemmas about the aggregation loop -/

/-- One successful loop iteration preserves the counter invariant, never
decreases a counter, and appends at most one entry to exactly one of the
two accumulators (none when the line was filtered as non-Japanese). -/
theorem processLine_step (B : Backend) (p cv sk fl : Nat)
    (res : List (String × String)) (skr : List (String × String × String))
    (line : String) (st' : LoopState)
    (h : processLine B ⟨⟨p, cv, sk, fl⟩, res, skr⟩ line = some st') :
    (cv + sk + fl ≤ p →
      st'.stats.converted + st'.stats.skipped + st'.stats.filtered_nonjp ≤
        st'.stats.processed_lines) ∧
    p ≤ st'.stats.processed_lines ∧
    cv ≤ st'.stats.converted ∧
    sk ≤ st'.stats.skipped ∧
    fl ≤ st'.stats.filtered_nonjp ∧
    ((st'.results = res ∧ st'.skippedRecs = skr) ∨
      (∃ e, st'.results = res ++ [e] ∧ st'.skippedRecs = skr) ∨
      (∃ e, st'.skippedRecs = skr ++ [e] ∧ st'.results = res)) ∧
    (st'.stats.filtered_nonjp ≠ fl → st'.results = res ∧ st'.skippedRecs = skr) := by
  unfold processLine at h
  cases hl : lineOutcome B line <;> rw [hl] at h
  case crash => exact Option.noConfusion h
  all_goals simp only [Option.some.injEq] at h
  all_goals subst h
  case silent =>
    exact ⟨fun hI => (Nat.le_succ_of_le hI : cv + sk + fl ≤ p + 1),
      Nat.le_succ p, Nat.le_refl cv, Nat.le_refl sk, Nat.le_refl fl,
      .inl ⟨rfl, rfl⟩, fun hne => ⟨rfl, rfl⟩⟩
  case nonjp w =>
    exact ⟨fun hI => (by omega : cv + sk + (fl + 1) ≤ p + 1),
      Nat.le_succ p, Nat.le_refl cv, Nat.le_refl sk, Nat.le_succ fl,
      .inl ⟨rfl, rfl⟩, fun hne => ⟨rfl, rfl⟩⟩
  case noRomaji w r =>
    exact ⟨fun hI => (by omega : cv + (sk + 1) + fl ≤ p + 1),
      Nat.le_succ p, Nat.le_refl cv, Nat.le_succ sk, Nat.le_refl fl,
      .inr (.inr ⟨(w, r, "无法生成ASCII romaji"), rfl, rfl⟩),
      fun hne => absurd rfl hne⟩
  case ok w romaji r =>
    exact ⟨fun hI => (by omega : cv + 1 + sk + fl ≤ p + 1),
      Nat.le_succ p, Nat.le_succ cv, Nat.le_refl sk, Nat.le_refl fl,
      .inr (.inl ⟨(w, romaji), rfl, rfl⟩),
      fun hne => absurd rfl hne⟩

/-- One successful loop iteration extends the two accumulators by exactly
the stateless per-line contributions. -/
theorem processLine_delta (B : Backend) (st : LoopState) (line : String)
    (st' : LoopState) (h : processLine B st line = some st') :
    st'.results = st.results ++ lineEntries B line ∧
    st'.skippedRecs = st.skippedRecs ++ lineSkips B line := by
  unfold processLine at h
  unfold lineEntries lineSkips
  cases hl : lineOutcome B line <;> rw [hl] at h
  case crash => exact Option.noConfusion h
  all_goals simp only [Option.some.injEq] at h
  all_goals subst h
  case silent => exact ⟨(List.append_nil _).symm, (List.append_nil _).symm⟩
  case nonjp w => exact ⟨(List.append_nil _).symm, (List.append_nil _).symm⟩
  case noRomaji w r => exact ⟨(List.append_nil _).symm, rfl⟩
  case ok w romaji r => exact ⟨rfl, (List.append_nil _).symm⟩

/-- A successful pass over a sequence of lines appends exactly the
per-line contributions, in line order. -/
theorem processLines_delta (B : Backend) (lines : List String) :
    ∀ st st', processLines B st lines = some st' →
      st'.results = st.results ++ extractEntries B lines ∧
      st'.skippedRecs = st.skippedRecs ++ extractSkips B lines := by
  induction lines with
  | nil =>
    intro st st' h
    simp only [processLines, List.foldlM_nil] at h
    cases h
    simp [extractEntries, extractSkips]
  | cons l ls ih =>
    intro st st' h
    rw [processLines, List.foldlM_cons] at h
    cases h1 : processLine B st l with
    | none =>
      rw [h1] at h
      exact Option.noConfusion h
    | some st1 =>
      rw [h1] at h
      replace h : processLines B st1 ls = some st' := h
      have hd := processLine_delta B st l st1 h1
      have tl := ih st1 st' h
      rw [extractEntries, List.flatMap_cons, extractSkips, List.flatMap_cons]
      constructor
      · rw [tl.1, hd.1, List.append_assoc]
        rfl
      · rw [tl.2, hd.2, List.append_assoc]
        rfl

/-- The counter invariant is preserved over any successful pass. -/
theorem processLines_inv (B : Backend) (lines : List String) :
    ∀ st st', processLines B st lines = some st' →
      st.stats.converted + st.stats.skipped + st.stats.filtered_nonjp ≤
        st.stats.processed_lines →
      st'.stats.converted + st'.stats.skipped + st'.stats.filtered_nonjp ≤
        st'.stats.processed_lines := by
  induction lines with
  | nil =>
    intro st st' h hI
    simp only [processLines, List.foldlM_nil] at h
    cases h
    exact hI
  | cons l ls ih =>
    intro st st' h hI
    rw [processLines, List.foldlM_cons] at h
    cases h1 : processLine B st l with
    | none =>
      rw [h1] at h
      exact Option.noConfusion h
    | some st1 =>
      rw [h1] at h
      replace h : processLines B st1 ls = some st' := h
      obtain ⟨⟨p, cv, sk, fl⟩, res, skr⟩ := st
      exact ih st1 st' h ((processLine_step B p cv sk fl res skr l st1 h1).1 hI)

/-! ## Claim theorems -/

/-- C7: at every point of a single aggregation pass,
`converted + skipped + filtered_nonjp ≤ processed_lines` holds, each
counter is monotonically non-decreasing across a line, every line appends
at most one Entry or at most one SkippedEntry and never both, and a line
that only bumps `filtered_nonjp` appends neither. -/
theorem C7_aggregation_invariants (B : Backend) :
    (∀ st line st', processLine B st line = some st' →
      (st.stats.converted + st.stats.skipped + st.stats.filtered_nonjp ≤
          st.stats.processed_lines →
        st'.stats.converted + st'.stats.skipped + st'.stats.filtered_nonjp ≤
          st'.stats.processed_lines) ∧
      st.stats.processed_lines ≤ st'.stats.processed_lines ∧
      st.stats.converted ≤ st'.stats.converted ∧
      st.stats.skipped ≤ st'.stats.skipped ∧
      st.stats.filtered_nonjp ≤ st'.stats.filtered_nonjp ∧
      ((st'.results = st.results ∧ st'.skippedRecs = st.skippedRecs) ∨
        (∃ e, st'.results = st.results ++ [e] ∧ st'.skippedRecs = st.skippedRecs) ∨
        (∃ e, st'.skippedRecs = st.skippedRecs ++ [e] ∧ st'.results = st.results)) ∧
      (st'.stats.filtered_nonjp ≠ st.stats.filtered_nonjp →
        st'.results = st.results ∧ st'.skippedRecs = st.skippedRecs)) ∧
    (∀ lines st', processLines B initState lines = some st' →
      st'.stats.converted + st'.stats.skipped + st'.stats.filtered_nonjp ≤
        st'.stats.processed_lines) := by
  constructor
  · intro st line st' h
    obtain ⟨⟨p, cv, sk, fl⟩, res, skr⟩ := st
    exact processLine_step B p cv sk fl res skr line st' h
  · intro lines st' h
    exact processLines_inv B lines initState st' h (Nat.le_refl 0)

/-- Witness for C7: the invariant at the state reached after one
single-field (hence silently skipped) line. -/
theorem C7_aggregation_invariants_witness :
    (LoopState.mk ⟨1, 0, 0, 0⟩ [] []).stats.converted +
        (LoopState.mk ⟨1, 0, 0, 0⟩ [] []).stats.skipped +
        (LoopState.mk ⟨1, 0, 0, 0⟩ [] []).stats.filtered_nonjp ≤
      (LoopState.mk ⟨1, 0, 0, 0⟩ [] []).stats.processed_lines :=
  (C7_aggregation_invariants idBackend).2 ["abc"]
    (LoopState.mk ⟨1, 0, 0, 0⟩ [] []) (by decide)

/-- C1 (code bug): the line `"a\tb"` splits into 2 tab-fields — fewer
than 5 — yet the loop body does not skip it silently: the guard only
checks for fewer than 2 fields, and the subsequent `parts[4]` access
raises an uncaught `IndexError` (modelled by `none`), aborting the run
for every backend and every prior state. -/
theorem C1_short_record_crashes :
    (splitTab (pyStripL "a\tb".data)).length < 5 ∧
    1 < (splitTab (pyStripL "a\tb".data)).length ∧
    ∀ (B : Backend) (st : LoopState), processLine B st "a\tb" = none :=
  ⟨by decide, by decide, fun B st => rfl⟩

/-- Counterexample to C2: the iteration mark 々 (U+3005) lies outside
both ranges of the qualifying-script test, so the headword never passes
it; and the record of the claim — reading field empty, headword 「々」,
i.e. the tab-separated line `"\ta\tb\tc\t々"` — is not skipped at all:
`line.strip()` removes the leading tab, the split leaves only 4 fields,
and the `parts[4]` access raises an uncaught `IndexError` (`none`), so
the skipped counter is not incremented and no SkippedEntry is appended. -/
theorem C2_counterexample :
    has_japanese "々" = false ∧
    processLine idBackend initState "\ta\tb\tc\t々" = none :=
  ⟨by decide, by decide⟩

/-- C2 as amended: the transliteration engine does return the empty
string on an empty reading, but the headword 「々」 fails the
qualifying-script test (U+3005 < U+3040), and a record whose reading
field is the empty string and whose headword is 「々」 — arriving as the
tab-separated line `"\ta\tb\tc\t々"` — is never recorded as skipped:
stripping eats the leading tab, leaving only 4 fields, so the `parts[4]`
access raises an uncaught `IndexError` aborting the run, for every
backend and every prior state; the skipped counter is not incremented
and neither an Entry nor a SkippedEntry is produced; the engine is never
consulted. -/
theorem C2_amended_iteration_mark (B : Backend) (st : LoopState) :
    has_japanese "々" = false ∧
    convert_reading_to_romaji B "" = "" ∧
    (splitTab (pyStripL "\ta\tb\tc\t々".data)).length = 4 ∧
    processLine B st "\ta\tb\tc\t々" = none :=
  ⟨by decide, rfl, by decide, rfl⟩

/-- Counterexample to C3: a record that qualifies by script but yields an
empty key produces a SkippedEntry whose reason string is the Chinese
literal `"无法生成ASCII romaji"`, not `"no ASCII romaji derivable"`. -/
theorem C3_counterexample :
    processLine emptyKanaBackend initState "x\ta\tb\tc\t学" =
      some ⟨⟨1, 0, 1, 0⟩, [], [("学", "x", "无法生成ASCII romaji")]⟩ ∧
    "无法生成ASCII romaji" ≠ "no ASCII romaji derivable" :=
  ⟨by decide, by decide⟩

/-- C3 as amended: every SkippedEntry appended by the loop carries
exactly the reason string `"无法生成ASCII romaji"` as its third
component. -/
theorem C3_skip_reason (B : Backend) (st : LoopState) (line : String)
    (st' : LoopState) (h : processLine B st line = some st') :
    st'.skippedRecs = st.skippedRecs ∨
    ∃ w r, st'.skippedRecs = st.skippedRecs ++ [(w, r, "无法生成ASCII romaji")] := by
  have hd := (processLine_delta B st line st' h).2
  rw [hd]
  unfold lineSkips
  cases lineOutcome B line
  case noRomaji w r => exact .inr ⟨w, r, rfl⟩
  all_goals exact .inl (List.append_nil _)

/-- Witness for C3 at a concrete skipped record. -/
theorem C3_skip_reason_witness :
    (LoopState.mk ⟨1, 0, 1, 0⟩ [] [("学", "x", "无法生成ASCII romaji")]).skippedRecs =
        initState.skippedRecs ∨
    ∃ w r, (LoopState.mk ⟨1, 0, 1, 0⟩ []
        [("学", "x", "无法生成ASCII romaji")]).skippedRecs =
      initState.skippedRecs ++ [(w, r, "无法生成ASCII romaji")] :=
  C3_skip_reason emptyKanaBackend initState "x\ta\tb\tc\t学"
    (LoopState.mk ⟨1, 0, 1, 0⟩ [] [("学", "x", "无法生成ASCII romaji")]) (by decide)

/-- C4: a run raises `FileNotFoundError` exactly when zero files match
the glob, and in that case it performs no file write at all (neither the
primary output file nor the diagnostic file is created or modified); with
at least one match the error is never `FileNotFoundError`. -/
theorem C4_notfound_gate (B : Backend) (dirFiles : List (String × List String))
    (dict_name output_file today : String) :
    ((mozc_to_rime B dirFiles dict_name output_file today).error =
        some PyErr.fileNotFound ↔ dirFiles = []) ∧
    (dirFiles = [] →
      (mozc_to_rime B dirFiles dict_name output_file today).writes = []) := by
  cases dirFiles with
  | nil =>
    refine ⟨⟨fun _ => rfl, fun _ => ?_⟩, fun _ => ?_⟩ <;>
      simp [mozc_to_rime, List.mergeSort_nil]
  | cons f fs =>
    cases hms : (f :: fs).mergeSort pathLe with
    | nil =>
      have hlen := @List.length_mergeSort _ pathLe (f :: fs)
      rw [hms] at hlen
      exact absurd hlen (by simp)
    | cons g gs =>
      refine ⟨⟨fun herr => ?_, fun hnil => absurd hnil (by simp)⟩,
        fun hnil => absurd hnil (by simp)⟩
      cases hp : processLines B initState (g.2 ++ gs.flatMap Prod.snd) with
      | none => simp [mozc_to_rime, hms, hp] at herr
      | some st => simp [mozc_to_rime, hms, hp] at herr

/-- Witness for C4: the empty glob result. -/
theorem C4_notfound_gate_witness :
    ((mozc_to_rime idBackend [] "mozc_jp" "mozc_jp.dict.yaml" "2026.10.12").error =
        some PyErr.fileNotFound) ∧
    (mozc_to_rime idBackend [] "mozc_jp" "mozc_jp.dict.yaml" "2026.10.12").writes = [] :=
  ⟨(C4_notfound_gate idBackend [] "mozc_jp" "mozc_jp.dict.yaml" "2026.10.12").1.mpr rfl,
   (C4_notfound_gate idBackend [] "mozc_jp" "mozc_jp.dict.yaml" "2026.10.12").2 rfl⟩

/-- Transitivity of the path comparison used to sort glob matches. -/
theorem pathLe_trans (a b c : String × List String)
    (h1 : pathLe a b = true) (h2 : pathLe b c = true) : pathLe a c = true := by
  simp only [pathLe, decide_eq_true_eq] at *
  exact le_trans h1 h2

/-- Totality of the path comparison used to sort glob matches. -/
theorem pathLe_total (a b : String × List String) :
    (pathLe a b || pathLe b a) = true := by
  simp only [pathLe, Bool.or_eq_true, decide_eq_true_eq]
  exact le_total a.1 b.1

/-- Sorting a non-empty list of glob matches yields a non-empty list. -/
theorem mergeSort_ne_nil (dirFiles : List (String × List String))
    (hne : dirFiles ≠ []) : dirFiles.mergeSort pathLe ≠ [] := by
  intro hms
  have hlen := @List.length_mergeSort _ pathLe dirFiles
  rw [hms] at hlen
  exact hne (List.length_eq_zero.mp hlen.symm)

/-- C8: on a successful run the primary output file is written as the
fixed header block — comment banner, `name:` = supplied dictionary name,
`version:` = the formatted current date, the fixed `sort:` directive, the
two-column `text`/`code` schema and the document-body delimiter — followed
by exactly one `word<TAB>phonetic_key` line per accepted Entry, in
aggregator order: files in lexicographic path order (the sorted glob list
is pairwise ordered), lines in file order. -/
theorem C8_primary_output (B : Backend) (dirFiles : List (String × List String))
    (dict_name output_file today : String) (st : LoopState)
    (hne : dirFiles ≠ [])
    (h : processLines B initState ((dirFiles.mergeSort pathLe).flatMap Prod.snd) = some st) :
    (mozc_to_rime B dirFiles dict_name output_file today).writes =
      [⟨output_file, headerStr dict_name today ++ String.join (st.results.map entryLine)⟩,
       ⟨"skipped.tsv", String.join (st.skippedRecs.map skipLine)⟩] ∧
    st.results = (dirFiles.mergeSort pathLe).flatMap (fun f => extractEntries B f.2) ∧
    List.Pairwise (fun a b => a.1 ≤ b.1) (dirFiles.mergeSort pathLe) ∧
    headerStr dict_name today =
      "# Rime dictionary converted from Mozc\n# encoding: utf-8\n---\nname: " ++
        dict_name ++ "\nversion: \"" ++ today ++
        "\"\nsort: by_weight\ncolumns:\n  - text\n  - code\n...\n\n" := by
  refine ⟨?_, ?_, ?_, rfl⟩
  · cases hms : dirFiles.mergeSort pathLe with
    | nil => exact absurd hms (mergeSort_ne_nil dirFiles hne)
    | cons g gs =>
      rw [hms, List.flatMap_cons] at h
      simp [mozc_to_rime, hms, h]
  · have hd := (processLines_delta B ((dirFiles.mergeSort pathLe).flatMap Prod.snd)
      initState st h).1
    rw [hd]
    simp only [initState, List.nil_append, extractEntries, List.flatMap_assoc]
  · have hs := @List.sorted_mergeSort _ pathLe pathLe_trans pathLe_total dirFiles
    exact hs.imp (fun hab => by simpa [pathLe] using hab)

/-- Witness for C8: a run over one file holding a single comment line. -/
theorem C8_primary_output_witness :
    (mozc_to_rime idBackend [("f1", ["# c"])] "mozc_jp" "mozc_jp.dict.yaml"
        "2026.10.12").writes =
      [⟨"mozc_jp.dict.yaml", headerStr "mozc_jp" "2026.10.12" ++
          String.join ((LoopState.mk ⟨1, 0, 0, 0⟩ [] []).results.map entryLine)⟩,
       ⟨"skipped.tsv",
          String.join ((LoopState.mk ⟨1, 0, 0, 0⟩ [] []).skippedRecs.map skipLine)⟩] ∧
    (LoopState.mk ⟨1, 0, 0, 0⟩ [] []).results =
      ([("f1", ["# c"])].mergeSort pathLe).flatMap
        (fun f => extractEntries idBackend f.2) ∧
    List.Pairwise (fun a b => a.1 ≤ b.1) ([("f1", ["# c"])].mergeSort pathLe) ∧
    headerStr "mozc_jp" "2026.10.12" =
      "# Rime dictionary converted from Mozc\n# encoding: utf-8\n---\nname: " ++
        "mozc_jp" ++ "\nversion: \"" ++ "2026.10.12" ++
        "\"\nsort: by_weight\ncolumns:\n  - text\n  - code\n...\n\n" :=
  C8_primary_output idBackend [("f1", ["# c"])] "mozc_jp" "mozc_jp.dict.yaml" "2026.10.12"
    (LoopState.mk ⟨1, 0, 0, 0⟩ [] []) (List.cons_ne_nil _ _)
    (by rw [List.mergeSort_singleton]; decide)

/-- C9: on every successful run the fixed-name diagnostic file
`skipped.tsv` is opened for overwrite and written with exactly one
`word<TAB>reading<TAB>reason` line per SkippedEntry, in aggregation
order; with zero skipped entries it is still written, with an empty
body. -/
theorem C9_diagnostic_output (B : Backend) (dirFiles : List (String × List String))
    (dict_name output_file today : String) (st : LoopState)
    (hne : dirFiles ≠ [])
    (h : processLines B initState ((dirFiles.mergeSort pathLe).flatMap Prod.snd) = some st) :
    (mozc_to_rime B dirFiles dict_name output_file today).error = none ∧
    (mozc_to_rime B dirFiles dict_name output_file today).writes.getLast? =
      some ⟨"skipped.tsv", String.join (st.skippedRecs.map skipLine)⟩ ∧
    st.skippedRecs = (dirFiles.mergeSort pathLe).flatMap (fun f => extractSkips B f.2) ∧
    (st.skippedRecs = [] →
      (mozc_to_rime B dirFiles dict_name output_file today).writes.getLast? =
        some ⟨"skipped.tsv", ""⟩) := by
  have hskip : st.skippedRecs =
      (dirFiles.mergeSort pathLe).flatMap (fun f => extractSkips B f.2) := by
    have hd := (processLines_delta B ((dirFiles.mergeSort pathLe).flatMap Prod.snd)
      initState st h).2
    rw [hd]
    simp only [initState, List.nil_append, extractSkips, List.flatMap_assoc]
  have hwl : (mozc_to_rime B dirFiles dict_name output_file today).error = none ∧
      (mozc_to_rime B dirFiles dict_name output_file today).writes.getLast? =
        some ⟨"skipped.tsv", String.join (st.skippedRecs.map skipLine)⟩ := by
    cases hms : dirFiles.mergeSort pathLe with
    | nil => exact absurd hms (mergeSort_ne_nil dirFiles hne)
    | cons g gs =>
      rw [hms, List.flatMap_cons] at h
      constructor <;> simp [mozc_to_rime, hms, h]
  refine ⟨hwl.1, hwl.2, hskip, fun hnil => ?_⟩
  rw [hwl.2, hnil]
  rfl

/-- Witness for C9: a run over one file holding a single comment line,
hence zero skipped entries and an empty diagnostic body. -/
theorem C9_diagnostic_output_witness :
    (mozc_to_rime idBackend [("f2", ["# c"])] "mozc_jp" "out.dict.yaml"
        "2026.10.12").error = none ∧
    (mozc_to_rime idBackend [("f2", ["# c"])] "mozc_jp" "out.dict.yaml"
        "2026.10.12").writes.getLast? =
      some ⟨"skipped.tsv",
        String.join ((LoopState.mk ⟨1, 0, 0, 0⟩ [] []).skippedRecs.map skipLine)⟩ ∧
    (LoopState.mk ⟨1, 0, 0, 0⟩ [] []).skippedRecs =
      ([("f2", ["# c"])].mergeSort pathLe).flatMap
        (fun f => extractSkips idBackend f.2) ∧
    ((LoopState.mk ⟨1, 0, 0, 0⟩ [] []).skippedRecs = [] →
      (mozc_to_rime idBackend [("f2", ["# c"])] "mozc_jp" "out.dict.yaml"
          "2026.10.12").writes.getLast? = some ⟨"skipped.tsv", ""⟩) :=
  C9_diagnostic_output idBackend [("f2", ["# c"])] "mozc_jp" "out.dict.yaml" "2026.10.12"
    (LoopState.mk ⟨1, 0, 0, 0⟩ [] []) (List.cons_ne_nil _ _)
    (by rw [List.mergeSort_singleton]; decide)
